import Mathlib

/-!
Verification development for the Presto Python client core
(prestodb/client.py).  The Python code is shallowly embedded: protocol
strings that undergo byte-level processing (percent encoding, header
splitting) are modelled as lists of byte values (Nat, each < 256);
opaque strings (query ids, URIs, error messages) stay Lean Strings;
Python dicts are association lists with unique keys; code that raises
exceptions returns Except values.
-/

namespace Presto

/-! ## Byte-string utilities (Python str operations used by client.py) -/

/-- Bytes of a Lean string literal (ASCII level), used to write
concrete protocol byte strings readably. -/
def strB (s : String) : List Nat := s.data.map Char.toNat

/-- Python str.split(sep) with a single-byte separator and no maxsplit:
an empty input gives one empty field. -/
def splitOnByte (sep : Nat) : List Nat → List (List Nat)
  | [] => [[]]
  | b :: rest =>
    match splitOnByte sep rest with
    | [] => [[]]
    | cur :: parts => if b = sep then [] :: cur :: parts else (b :: cur) :: parts

/-- Python str.split(sep, 1) restricted to the case used by the client:
split at the first occurrence of the separator; none when absent
(in which case the Python tuple unpacking raises ValueError). -/
def splitFirst (sep : Nat) : List Nat → Option (List Nat × List Nat)
  | [] => none
  | b :: rest =>
    if b = sep then some ([], rest)
    else (splitFirst sep rest).map (fun p => (b :: p.1, p.2))

def isSpaceByte (b : Nat) : Bool :=
  b = 32 || b = 9 || b = 10 || b = 13 || b = 11 || b = 12

/-- Python str.strip(): drop leading and trailing whitespace. -/
def stripBytes (l : List Nat) : List Nat :=
  ((l.dropWhile isSpaceByte).reverse.dropWhile isSpaceByte).reverse

def isHexDigitByte (b : Nat) : Bool :=
  (48 ≤ b && b ≤ 57) || (65 ≤ b && b ≤ 70) || (97 ≤ b && b ≤ 102)

def hexVal (b : Nat) : Nat :=
  if 48 ≤ b && b ≤ 57 then b - 48
  else if 65 ≤ b && b ≤ 70 then b - 55
  else b - 87

/-- Upper-case hex digit of a value below 16, as a byte. -/
def hexDigit (x : Nat) : Nat := if x < 10 then 48 + x else 55 + x

/-- Bytes that urllib.parse.quote leaves unescaped with the default
safe set: ASCII letters, digits, "_.-~" and "/". -/
def quoteSafe (b : Nat) : Bool :=
  (48 ≤ b && b ≤ 57) || (65 ≤ b && b ≤ 90) || (97 ≤ b && b ≤ 122) ||
  b = 45 || b = 46 || b = 95 || b = 126 || b = 47

/-- urllib.parse.quote at byte level: every unsafe byte becomes
a percent sign followed by two upper-case hex digits. -/
def pyQuote : List Nat → List Nat
  | [] => []
  | b :: rest =>
    if quoteSafe b then b :: pyQuote rest
    else 37 :: hexDigit (b / 16) :: hexDigit (b % 16) :: pyQuote rest

/-- urllib.parse.unquote at byte level: each percent sign followed by
two hex digits decodes to one byte; an invalid escape keeps the
percent sign literally (as CPython does). -/
def pyUnquote : List Nat → List Nat
  | [] => []
  | 37 :: h1 :: h2 :: rest =>
    if isHexDigitByte h1 && isHexDigitByte h2 then
      (hexVal h1 * 16 + hexVal h2) :: pyUnquote rest
    else 37 :: pyUnquote (h1 :: h2 :: rest)
  | 37 :: rest => 37 :: pyUnquote rest
  | b :: rest => b :: pyUnquote rest

/-! ## Python dict operations (association lists with unique keys) -/

variable {α β : Type} [DecidableEq α]

/-- dict[k] = v: overwrite in place, or append a new binding. -/
def dictInsert : List (α × β) → α → β → List (α × β)
  | [], k, v => [(k, v)]
  | (k', v') :: rest, k, v =>
    if k' = k then (k, v) :: rest else (k', v') :: dictInsert rest k v

/-- dict.pop(k, None): drop the binding of k when present. -/
def dictPop : List (α × β) → α → List (α × β)
  | [], _ => []
  | (k', v') :: rest, k => if k' = k then rest else (k', v') :: dictPop rest k

/-- dict.get(k): first (only) binding of k. -/
def dictGet : List (α × β) → α → Option β
  | [], _ => none
  | (k', v') :: rest, k => if k' = k then some v' else dictGet rest k

/-- dict.update(other): insert every binding of the second dict. -/
def dictUpdate (d other : List (α × β)) : List (α × β) :=
  other.foldl (fun acc p => dictInsert acc p.1 p.2) d

/-! ## Session header parsing (client.py get_header_values,
get_session_property_values) -/

/-- get_header_values: split the raw header value on commas and strip
each field. -/
def get_header_values (hdr : List Nat) : List (List Nat) :=
  (splitOnByte 44 hdr).map stripBytes

/-- get_session_property_values: each comma-separated field is split on
the first equals sign; the key is stripped, the value is stripped and
percent-decoded.  A field without an equals sign makes the Python
tuple unpacking raise ValueError, modelled as none. -/
def get_session_property_values (hdr : List Nat) :
    Option (List (List Nat × List Nat)) :=
  (get_header_values hdr).mapM fun kv =>
    (splitFirst 61 kv).map fun p => (stripBytes p.1, pyUnquote (stripBytes p.2))

/-- The session properties after X-Presto-Clear-Session names are
popped (client.py lines 415-419). -/
def applyClearSession (props : List (List Nat × List Nat)) (names : List (List Nat)) :
    List (List Nat × List Nat) :=
  names.foldl (fun d n => dictPop d n) props

/-- The session properties after X-Presto-Set-Session pairs are
inserted (client.py lines 421-425). -/
def applySetSession (props : List (List Nat × List Nat))
    (pairs : List (List Nat × List Nat)) : List (List Nat × List Nat) :=
  pairs.foldl (fun d kv => dictInsert d kv.1 kv.2) props

/-- The comma-joined entries of the X-Presto-Session request header:
one name=percent_encoded_value entry per session property
(client.py lines 281-285). -/
def sessionEntries (props : List (List Nat × List Nat)) : List (List Nat) :=
  props.map fun p => p.1 ++ 61 :: pyQuote p.2

/-- Python ",".join at byte level. -/
def joinComma : List (List Nat) → List Nat
  | [] => []
  | [e] => e
  | e :: rest => e ++ 44 :: joinComma rest

/-! ## Request headers (client.py PrestoRequest.http_headers)

Header names are modelled as an enumeration: the reserved protocol
names (fixed strings X-Presto-User, X-Presto-Source, X-Presto-Catalog,
X-Presto-Schema, X-Presto-Session, X-Presto-Transaction-Id,
X-Presto-Prepared-Statement, listed in the spec) are distinct
constructors, and any other header name is wrapped in custom. -/

inductive HeaderName where
  | user
  | source
  | catalog
  | schema
  | session
  | transactionId
  | preparedStatement
  | custom (s : String)
deriving DecidableEq

/-- A header value: Python None, an opaque string, or a byte string
assembled by the client. -/
inductive HVal where
  | pyNone
  | s (v : String)
  | b (v : List Nat)
deriving DecidableEq

/-- client.py ClientSession: the session state serialized into request
headers.  Property names and values are byte strings (they undergo
percent encoding); the other fields are opaque. -/
structure ClientSessionM where
  user : Option String
  catalog : Option String
  schema : Option String
  source : Option String
  properties : List (List Nat × List Nat)
  headers : List (HeaderName × String)
  transaction_id : Option String
deriving DecidableEq

def ovHV : Option String → HVal
  | none => .pyNone
  | some v => .s v

/-- The header dict built by PrestoRequest.http_headers before the
extra headers are merged: catalog, schema, source, user, the prepared
statements when there are any, and the session header.  The
transaction header is not yet present at this point. -/
def reservedHeaderDict (cs : ClientSessionM) (prepared_statements : List String) :
    List (HeaderName × HVal) :=
  let h0 : List (HeaderName × HVal) :=
    [(HeaderName.catalog, ovHV cs.catalog),
     (HeaderName.schema, ovHV cs.schema),
     (HeaderName.source, ovHV cs.source),
     (HeaderName.user, ovHV cs.user)]
  let h1 := if prepared_statements.length > 0 then
      dictInsert h0 .preparedStatement (.s (String.intercalate "," prepared_statements))
    else h0
  dictInsert h1 .session (.b (joinComma (sessionEntries cs.properties)))

/-- PrestoRequest.http_headers (client.py lines 269-296): build the
reserved headers, fail when a user-supplied extra header collides with
a key present at that point, otherwise merge the extra headers and
finally write the transaction header. -/
def http_headers (cs : ClientSessionM) (prepared_statements : List String) :
    Except String (List (HeaderName × HVal)) :=
  let h2 := reservedHeaderDict cs prepared_statements
  if cs.headers.any (fun p => (dictGet h2 p.1).isSome) then
    .error "cannot override reserved HTTP header"
  else
    let h3 := cs.headers.foldl (fun acc p => dictInsert acc p.1 (.s p.2)) h2
    .ok (dictInsert h3 .transactionId (ovHV cs.transaction_id))

/-! ## Protocol data (response bodies, statuses, errors) -/

/-- A result cell as decoded from the JSON body.  JSON floats are not
modelled (no claim involves them). -/
inductive Cell where
  | null
  | str (s : List Nat)
  | num (n : Int)
  | boolean (b : Bool)
  | list (xs : List Cell)

/-- A column type signature: rawType plus the type signatures found at
arguments[i].value in the JSON column descriptor. -/
inductive TypeSig where
  | mk (rawType : List Nat) (args : List TypeSig)

def TypeSig.rawType : TypeSig → List Nat
  | .mk r _ => r

def TypeSig.args : TypeSig → List TypeSig
  | .mk _ a => a

structure ColumnDesc where
  name : List Nat
  typeSignature : TypeSig

/-- The JSON error object carried in a response body. -/
structure ErrInfo where
  errorType : String
  message : String
deriving DecidableEq

/-- A decoded JSON response body.  A none field models an absent JSON
field (columns also covers JSON null, since response.get returns None
for both). -/
structure RespBody where
  id : Option String
  infoUri : Option String
  nextUri : Option String
  stats : Option (List (String × String))
  warnings : Option (List String)
  dataRows : Option (List (List Cell))
  columns : Option (List ColumnDesc)
  error : Option ErrInfo

/-- An HTTP response as seen by PrestoRequest.process: status code,
raw content, the three session-mutating response headers, and the
decoded JSON body (none models undecodable JSON). -/
structure MockResponse where
  status_code : Nat
  content : String
  clearSessionHdr : Option (List Nat)
  setSessionHdr : Option (List Nat)
  addedPrepareHdr : Option (List Nat)
  body : Option RespBody

/-- client.py PrestoStatus. -/
structure PrestoStatus where
  id : String
  stats : List (String × String)
  warnings : List String
  info_uri : String
  next_uri : Option String
  rows : List (List Cell)
  columns : Option (List ColumnDesc)

/-- The argument of a raised Presto exception: either a plain message
string or the structured error object. -/
inductive ErrPayload where
  | msg (s : String)
  | obj (e : ErrInfo)
deriving DecidableEq

/-- The exceptions raised by the client (prestodb.exceptions); pyError
models a raw Python exception (ValueError, KeyError, NameError, ...)
escaping from the client code, and transportError a network failure. -/
inductive PrestoErr where
  | http503
  | httpError (status : Nat) (content : String)
  | externalError (e : ErrInfo) (query_id : Option String)
  | userError (p : ErrPayload) (query_id : Option String)
  | queryError (e : ErrInfo) (query_id : Option String)
  | pyError (s : String)
  | transportError
deriving DecidableEq

/-- requests.Response.ok: status code below 400. -/
def respOk (r : MockResponse) : Bool := r.status_code < 400

/-- PrestoRequest.raise_response_error (client.py lines 394-403). -/
def raise_response_error (status : Nat) (content : String) : PrestoErr :=
  if status = 503 then .http503 else .httpError status content

/-- PrestoRequest._process_error (client.py lines 385-392): an
EXTERNAL error is raised inside the helper itself (Except.error, the
eager path); USER_ERROR and any other type are returned to the caller
(Except.ok) which then raises them. -/
def process_error (error : ErrInfo) (query_id : Option String) :
    Except PrestoErr PrestoErr :=
  if error.errorType = "EXTERNAL" then .error (.externalError error query_id)
  else if error.errorType = "USER_ERROR" then .ok (.userError (.obj error) query_id)
  else .ok (.queryError error query_id)

/-- In process, the statement raise self._process_error(...) raises the
returned error, and an error raised inside the helper propagates:
either way the classified error is what the caller sees. -/
def raisedOf : Except PrestoErr PrestoErr → PrestoErr
  | .error e => e
  | .ok e => e

/-- The state of a PrestoRequest that process mutates: the client
session properties, the continuation URI, and the prepared-statement
header stored on the underlying transport session. -/
structure ReqState where
  props : List (List Nat × List Nat)
  next_uri : Option String
  transport_prepared : Option (List Nat)
deriving DecidableEq

/-- PrestoRequest.process (client.py lines 405-442): raise on non-2xx
or on a body-level error (before any session mutation); otherwise
apply Clear-Session, then Set-Session, then Added-Prepare, record
nextUri, and build the PrestoStatus (missing id, stats or infoUri
raise KeyError after the mutations). -/
def processE (st : ReqState) (r : MockResponse) :
    Except PrestoErr PrestoStatus × ReqState :=
  if respOk r = false then (.error (raise_response_error r.status_code r.content), st)
  else
    match r.body with
    | none => (.error (.pyError "json decode failed"), st)
    | some b =>
      match b.error with
      | some e => (.error (raisedOf (process_error e b.id)), st)
      | none =>
        let props1 :=
          match r.clearSessionHdr with
          | none => st.props
          | some h => applyClearSession st.props (get_header_values h)
        match (match r.setSessionHdr with
               | none => some props1
               | some h => (get_session_property_values h).map (applySetSession props1)) with
        | none => (.error (.pyError "ValueError: not enough values to unpack"),
                   { st with props := props1 })
        | some props2 =>
          let prep :=
            match r.addedPrepareHdr with
            | none => st.transport_prepared
            | some h => some h
          let st' : ReqState :=
            { props := props2, next_uri := b.nextUri, transport_prepared := prep }
          match b.id, b.stats, b.infoUri with
          | some i, some sts, some iu =>
            (.ok { id := i, stats := sts, warnings := b.warnings.getD [],
                   info_uri := iu, next_uri := b.nextUri, rows := b.dataRows.getD [],
                   columns := b.columns }, st')
          | _, _, _ => (.error (.pyError "KeyError"), st')

/-! ## Query driver (client.py PrestoQuery) and result iterator
(client.py PrestoResult) -/

/-- The mutable state of a PrestoQuery together with its PrestoRequest. -/
structure QState where
  req : ReqState
  query_id : Option String
  columns : Option (List ColumnDesc)
  stats : List (String × String)
  warnings : List String
  finished : Bool
  cancelled : Bool

/-- A freshly constructed query on a fresh request. -/
def freshQuery (props : List (List Nat × List Nat)) : QState :=
  { req := { props := props, next_uri := none, transport_prepared := none },
    query_id := none, columns := none, stats := [], warnings := [],
    finished := false, cancelled := false }

/-- Python truthiness of status.columns: None and the empty list are
falsy, a non-empty list is truthy. -/
def colTruthy : Option (List ColumnDesc) → Bool
  | none => false
  | some l => !l.isEmpty

/-- PrestoQuery.fetch (client.py lines 612-625): when next_uri is gone
the query just finishes; otherwise GET the continuation and process
the response, latching columns only when the status carries a truthy
list, merging stats, and finishing when nextUri is absent. -/
def fetchE (q : QState) (r : MockResponse) :
    Except PrestoErr (List (List Cell)) × QState :=
  match q.req.next_uri with
  | none => (.ok [], { q with finished := true })
  | some _ =>
    match processE q.req r with
    | (.error e, req') => (.error e, { q with req := req' })
    | (.ok status, req') =>
      (.ok status.rows,
       { q with req := req',
                columns := if colTruthy status.columns then status.columns else q.columns,
                stats := dictUpdate q.stats status.stats,
                finished := if status.next_uri.isNone then true else q.finished })

/-- The greedy polling loop at the end of PrestoQuery.execute
(client.py lines 606-609): while not finished and not cancelled,
append the rows of each fetch.  The poll responses the server would
deliver are passed as a list; running out of responses while the query
still wants one models a transport failure. -/
def executeLoop : QState → List (List Cell) → List MockResponse →
    Except PrestoErr (List (List Cell)) × QState
  | q, acc, [] =>
    if q.finished || q.cancelled then (.ok acc, q) else (.error .transportError, q)
  | q, acc, r :: rest =>
    if q.finished || q.cancelled then (.ok acc, q)
    else
      match fetchE q r with
      | (.error e, q') => (.error e, q')
      | (.ok rows, q') => executeLoop q' (acc ++ rows) rest

/-- PrestoQuery.execute (client.py lines 582-610): refuse a cancelled
query with UserError, POST the statement, record query_id and stats
and warnings, finish when nextUri is absent, then poll greedily.  The
returned list is the Result buffer handed to PrestoResult. -/
def executeE (q : QState) (postResp : MockResponse) (polls : List MockResponse) :
    Except PrestoErr (List (List Cell)) × QState :=
  if q.cancelled then
    (.error (.userError (.msg "Query has been cancelled") q.query_id), q)
  else
    match processE q.req postResp with
    | (.error e, req') => (.error e, { q with req := req' })
    | (.ok status, req') =>
      let q1 : QState :=
        { q with req := req', query_id := some status.id,
                 stats := dictUpdate (dictInsert q.stats "queryId" status.id) status.stats,
                 warnings := status.warnings,
                 finished := if status.next_uri.isNone then true else q.finished }
      executeLoop q1 status.rows polls

/-- The yields of one pass over buffered rows in PrestoResult.iter:
each yielded row is paired with the value of the one-based rownumber
counter at the moment it is yielded. -/
def iterYields : Nat → List (List Cell) → List (Nat × List Cell)
  | _, [] => []
  | n, row :: rest => (n + 1, row) :: iterYields (n + 1) rest

/-- The second phase of PrestoResult.iter (client.py lines 485-493):
while the query is not finished, fetch and yield each returned row,
advancing rownumber once per row. -/
def iterFetch : QState → Nat → List MockResponse →
    Except PrestoErr (List (Nat × List Cell) × Nat × QState)
  | q, rn, [] => if q.finished then .ok ([], rn, q) else .error .transportError
  | q, rn, r :: rest =>
    if q.finished then .ok ([], rn, q)
    else
      match fetchE q r with
      | (.error e, _) => .error e
      | (.ok rows, q') =>
        match iterFetch q' (rn + rows.length) rest with
        | .error e => .error e
        | .ok (ys, rnf, qf) => .ok (iterYields rn rows ++ ys, rnf, qf)

/-- PrestoResult.iter (client.py lines 475-493): yield the buffered
rows from the initial POST, then keep fetching until the query is
finished.  Returns the yields (row paired with the rownumber at its
yield), the final rownumber, and the final query state. -/
def resultIter (q : QState) (rows0 : List (List Cell)) (polls : List MockResponse) :
    Except PrestoErr (List (Nat × List Cell) × Nat × QState) :=
  match iterFetch q rows0.length polls with
  | .error e => .error e
  | .ok (ys, rnf, qf) => .ok (iterYields 0 rows0 ++ ys, rnf, qf)

/-! ## Cancellation (client.py PrestoQuery.cancel) -/

structure ReqConfig where
  http_scheme : String
  host : String
  port : Nat
deriving DecidableEq

/-- PrestoRequest.get_url (client.py lines 327-331). -/
def get_url (cfg : ReqConfig) (path : String) : String :=
  cfg.http_scheme ++ "://" ++ cfg.host ++ ":" ++ toString cfg.port ++ path

/-- What the DELETE request comes back with: a response, or a
transport-level exception. -/
inductive DeleteOutcome where
  | resp (status : Nat) (content : String)
  | exc
deriving DecidableEq

/-- PrestoQuery.cancel (client.py lines 627-641): no-op when query_id
is unset or the query is finished; otherwise set cancelled, issue one
DELETE (the returned list collects the URLs of the issued requests),
accept 204 silently and push any other status through
raise_response_error.  A transport exception propagates. -/
def cancelQ (cfg : ReqConfig) (q : QState) (d : DeleteOutcome) :
    QState × List String × Except PrestoErr Unit :=
  match q.query_id with
  | none => (q, [], .ok ())
  | some qid =>
    if q.finished then (q, [], .ok ())
    else
      let q' := { q with cancelled := true }
      let url := get_url cfg ("/v1/query/" ++ qid)
      match d with
      | .exc => (q', [url], .error .transportError)
      | .resp s c =>
        if s = 204 then (q', [url], .ok ())
        else (q', [url], .error (raise_response_error s c))

/-! ## Retry (PrestoRequest.max_attempts setter, client.py lines
298-325, over the retry combinator of prestodb.exceptions) -/

/-- One HTTP attempt either raises a transport or authenticator
exception, or yields a response with a status code. -/
inductive AttemptResult where
  | exc
  | resp (status : Nat)
deriving DecidableEq

/-- The retry conditions wired in the max_attempts setter: the
configured exception set, or a response whose status code is 503. -/
def retriable : AttemptResult → Bool
  | .exc => true
  | .resp s => s = 503

/-- Modelled from the spec: exceptions.retry_with, whose source is not
part of this repository snapshot (only the wiring in the max_attempts
setter is).  Per the spec, the wrapped verb is attempted repeatedly
with backoff while the attempt is retriable, and the total number of
attempts must not exceed max_attempts; a non-retriable outcome is
returned at once.  Attempts are numbered from 1; the second argument
is the remaining attempt budget. -/
def retryGo (server : Nat → AttemptResult) : Nat → Nat → AttemptResult × Nat
  | k, 0 => (server k, k)
  | k, remaining + 1 =>
    let r := server k
    if retriable r && remaining > 0 then retryGo server (k + 1) remaining else (r, k)

/-- The max_attempts setter: with max_attempts equal to one the raw
verb is used (one attempt); otherwise the verb is wrapped with the
retry combinator with that attempt budget. -/
def callWithRetry (max_attempts : Nat) (server : Nat → AttemptResult) :
    AttemptResult × Nat :=
  if max_attempts = 1 then (server 1, 1) else retryGo server 1 max_attempts

/-! ## Well-formed response traces (used to state the row-count law) -/

/-- A response on the happy path: 2xx-ok, decodable body, no embedded
error, the fields the status needs, and a parseable Set-Session header
when one is present. -/
def cleanResp (r : MockResponse) : Bool :=
  respOk r &&
  match r.body with
  | none => false
  | some b =>
    b.error.isNone && b.id.isSome && b.stats.isSome && b.infoUri.isSome &&
    (match r.setSessionHdr with
     | none => true
     | some h => (get_session_property_values h).isSome)

/-- The nextUri carried in a response body. -/
def nextOf (r : MockResponse) : Option String :=
  match r.body with
  | none => none
  | some b => b.nextUri

/-- The data rows carried in a response body (absent means empty). -/
def dataOf (r : MockResponse) : List (List Cell) :=
  match r.body with
  | none => []
  | some b => b.dataRows.getD []

/-- A list of poll responses consistent with the driver loop: the
first argument is the finished flag entering the loop; every response
is clean and the last one (and only it) drops nextUri. -/
def pollsWf : Bool → List MockResponse → Bool
  | true, polls => polls.isEmpty
  | false, [] => false
  | false, r :: rest => cleanResp r && pollsWf (nextOf r).isNone rest

/-- The PrestoStatus a clean response processes to. -/
def statusOf (r : MockResponse) : PrestoStatus :=
  match r.body with
  | none =>
    { id := "", stats := [], warnings := [], info_uri := "", next_uri := none,
      rows := [], columns := none }
  | some b =>
    { id := b.id.getD "", stats := b.stats.getD [], warnings := b.warnings.getD [],
      info_uri := b.infoUri.getD "", next_uri := b.nextUri,
      rows := b.dataRows.getD [], columns := b.columns }

/-- The session properties after the Clear-Session and Set-Session
headers of one response are applied in order. -/
def propsAfter (props : List (List Nat × List Nat)) (r : MockResponse) :
    List (List Nat × List Nat) :=
  let props1 :=
    match r.clearSessionHdr with
    | none => props
    | some h => applyClearSession props (get_header_values h)
  match r.setSessionHdr with
  | none => props1
  | some h =>
    match get_session_property_values h with
    | none => props1
    | some pairs => applySetSession props1 pairs

/-- The transport-level prepared-statement header after one response. -/
def prepAfter (tp : Option (List Nat)) (r : MockResponse) : Option (List Nat) :=
  match r.addedPrepareHdr with
  | none => tp
  | some h => some h

/-- The request state after a clean response is processed. -/
def reqAfter (st : ReqState) (r : MockResponse) : ReqState :=
  { props := propsAfter st.props r, next_uri := nextOf r,
    transport_prepared := prepAfter st.transport_prepared r }

/-! ## Typed row mapper (client.py PrestoResult._map_to_python_type)

The strptime formats used by the mapper are modelled byte by byte
after the CPython directive patterns: a two-digit-or-one-digit numeric
field is a regex alternation tried longest first, the year is exactly
four digits, the fraction is one to six digits right-padded to
microseconds.  In every format used here a numeric field is followed
by a non-digit literal or the end, so committing to the first
alternative whose continuation succeeds is observationally equal to
full regex backtracking. -/

def isDigitByte (b : Nat) : Bool := 48 ≤ b && b ≤ 57

def digitVal (b : Nat) : Nat := b - 48

def beginsWith : List Nat → List Nat → Bool
  | [], _ => true
  | _ :: _, [] => false
  | x :: xs, y :: ys => x = y && beginsWith xs ys

/-- Python substring containment (the in operator on str). -/
def containsSeq (needle : List Nat) : List Nat → Bool
  | [] => needle.isEmpty
  | b :: rest => beginsWith needle (b :: rest) || containsSeq needle rest

/-- First candidate accepted by the continuation. -/
def pickFirst {σ τ : Type} (f : σ → Option τ) : List σ → Option τ
  | [] => none
  | x :: xs =>
    match f x with
    | some y => some y
    | none => pickFirst f xs

/-- Candidates of a strptime numeric field whose pattern accepts a
two-digit value between lo and hi or a single digit at least lo,
in the order the regex alternation tries them. -/
def candNum (lo hi : Nat) : List Nat → List (Nat × List Nat)
  | x :: y :: rest =>
    (if isDigitByte x && isDigitByte y &&
        lo ≤ digitVal x * 10 + digitVal y && digitVal x * 10 + digitVal y ≤ hi then
       [(digitVal x * 10 + digitVal y, rest)] else []) ++
    (if isDigitByte x && lo ≤ digitVal x && digitVal x ≤ 9 then
       [(digitVal x, y :: rest)] else [])
  | [x] => if isDigitByte x && lo ≤ digitVal x && digitVal x ≤ 9 then [(digitVal x, [])] else []
  | [] => []

/-- The strptime year directive: exactly four digits. -/
def cand4 : List Nat → List (Nat × List Nat)
  | x :: y :: z :: w :: rest =>
    if isDigitByte x && isDigitByte y && isDigitByte z && isDigitByte w then
      [(digitVal x * 1000 + digitVal y * 100 + digitVal z * 10 + digitVal w, rest)]
    else []
  | _ => []

def takeDigits : List Nat → List Nat × List Nat
  | [] => ([], [])
  | b :: rest =>
    if isDigitByte b then
      match takeDigits rest with
      | (ds, r) => (b :: ds, r)
    else ([], b :: rest)

def natDigits (ds : List Nat) : Nat := ds.foldl (fun a b => a * 10 + digitVal b) 0

/-- The strptime fraction directive: one to six digits, right-padded
to microseconds; further digits stay in the remainder. -/
def candMicro (l : List Nat) : List (Nat × List Nat) :=
  match takeDigits l with
  | (ds, r) =>
    if ds.isEmpty then []
    else [(natDigits (ds.take 6) * 10 ^ (6 - (ds.take 6).length), ds.drop 6 ++ r)]

def isLeapYear (y : Nat) : Bool := y % 4 = 0 && (y % 100 ≠ 0 || y % 400 = 0)

def daysInMonth (y mo : Nat) : Nat :=
  if mo = 2 then (if isLeapYear y then 29 else 28)
  else if mo = 4 || mo = 6 || mo = 9 || mo = 11 then 30
  else 31

/-- The datetime constructor's validation of a parsed date. -/
def isValidDate (y mo d : Nat) : Bool := 1 ≤ y && d ≤ daysInMonth y mo

/-- strptime with format %Y-%m-%d, leaving a remainder. -/
def parseDateRem (l : List Nat) : Option ((Nat × Nat × Nat) × List Nat) :=
  pickFirst (fun yr =>
    match yr.2 with
    | 45 :: r2 =>
      pickFirst (fun mr =>
        match mr.2 with
        | 45 :: r4 =>
          pickFirst (fun dr =>
            if isValidDate yr.1 mr.1 dr.1 then some ((yr.1, mr.1, dr.1), dr.2) else none)
            (candNum 1 31 r4)
        | _ => none) (candNum 1 12 r2)
    | _ => none) (cand4 l)

/-- strptime with format %H:%M:%S.%f, leaving a remainder. -/
def parseHMSfRem (l : List Nat) : Option ((Nat × Nat × Nat × Nat) × List Nat) :=
  pickFirst (fun hr =>
    match hr.2 with
    | 58 :: r2 =>
      pickFirst (fun mr =>
        match mr.2 with
        | 58 :: r4 =>
          pickFirst (fun sr =>
            match sr.2 with
            | 46 :: r6 =>
              match candMicro r6 with
              | [] => none
              | fr :: _ => some ((hr.1, mr.1, sr.1, fr.1), fr.2)
            | _ => none) (candNum 0 61 r4)
        | _ => none) (candNum 0 59 r2)
    | _ => none) (candNum 0 23 l)

/-- strptime with format %H:%M:%S.%f consuming the whole input. -/
def parseHMSf (l : List Nat) : Option (Nat × Nat × Nat × Nat) :=
  match parseHMSfRem l with
  | some (r, []) => some r
  | _ => none

/-- strptime with format %Y-%m-%d consuming the whole input. -/
def parseDateFull (l : List Nat) : Option (Nat × Nat × Nat) :=
  match parseDateRem l with
  | some (r, []) => some r
  | _ => none

/-- strptime with format %Y-%m-%d %H:%M:%S.%f, leaving a remainder. -/
def parseTimestampRem (l : List Nat) :
    Option ((Nat × Nat × Nat) × (Nat × Nat × Nat × Nat) × List Nat) :=
  match parseDateRem l with
  | none => none
  | some (ymd, r1) =>
    match r1 with
    | 32 :: r2 =>
      match parseHMSfRem r2 with
      | none => none
      | some (hmsf, r3) => some (ymd, hmsf, r3)
    | _ => none

/-- strptime with format %Y-%m-%d %H:%M:%S.%f consuming the whole input. -/
def parseTimestampFull (l : List Nat) : Option ((Nat × Nat × Nat) × (Nat × Nat × Nat × Nat)) :=
  match parseTimestampRem l with
  | some (ymd, hmsf, []) => some (ymd, hmsf)
  | _ => none

/-- The strptime z directive restricted to the sign-hours-minutes
forms with or without a colon (seconds-precision offsets are not used
by any claim); the result is the offset in minutes. -/
def parseZOffset (l : List Nat) : Option Int :=
  match l with
  | s :: x :: y :: rest =>
    if (s = 43 || s = 45) && isDigitByte x && isDigitByte y then
      match (match rest with
             | 58 :: c :: d :: ([] : List Nat) => some (c, d)
             | c :: d :: ([] : List Nat) => some (c, d)
             | _ => none) with
      | some (c, d) =>
        if isDigitByte c && isDigitByte d then
          let off : Int := ((digitVal x * 10 + digitVal y) * 60 + (digitVal c * 10 + digitVal d) : Nat)
          some (if s = 45 then -off else off)
        else none
      | none => none
    else none
  | _ => none

/-- Python str.rsplit(" ", 1) when a space is present. -/
def rsplitSpace1 (l : List Nat) : Option (List Nat × List Nat) :=
  match splitFirst 32 l.reverse with
  | none => none
  | some p => some (p.2.reverse, p.1.reverse)

/-- The match of the anchored pattern (.*)([+-])(dd):(dd) applied to a
time-with-time-zone value: the suffix has fixed length six, so the
match position is forced; a newline in group 1 defeats the dot. -/
def timeTzMatch (v : List Nat) : Option (List Nat × Nat × Nat × Nat) :=
  if v.length < 6 then none
  else
    match v.drop (v.length - 6) with
    | [s, x, y, 58, c, d] =>
      if (s = 43 || s = 45) && isDigitByte x && isDigitByte y &&
         isDigitByte c && isDigitByte d && !(v.take (v.length - 6)).contains 10 then
        some (v.take (v.length - 6), s, digitVal x * 10 + digitVal y,
              digitVal c * 10 + digitVal d)
      else none
    | _ => none

/-- Decimal(str) restricted to the plain sign-digits-point-digits
forms (exponents and special values are not used by any claim); the
result is the signed coefficient and the scale. -/
def parseDecimal (l : List Nat) : Option (Int × Nat) :=
  let l1 := stripBytes l
  let sl : Int × List Nat :=
    match l1 with
    | 43 :: r => (1, r)
    | 45 :: r => (-1, r)
    | _ => (1, l1)
  match takeDigits sl.2 with
  | (ip, r1) =>
    match r1 with
    | [] => if ip.isEmpty then none else some (sl.1 * (natDigits ip : Nat), 0)
    | 46 :: r2 =>
      match takeDigits r2 with
      | (fp, r3) =>
        if r3.isEmpty && !(ip.isEmpty && fp.isEmpty) then
          some (sl.1 * (natDigits (ip ++ fp) : Nat), fp.length)
        else none
    | _ => none

/-- Values produced by the typed row mapper. -/
inductive PyVal where
  | pyNone
  | dec (mant : Int) (scale : Nat)
  | date (y mo d : Nat)
  | naive (y mo d h mi s f : Nat)
  | aware (y mo d h mi s f : Nat) (offMinutes : Int)
  | awareNamed (y mo d h mi s f : Nat) (zone : List Nat)
  | time (h mi s f : Nat) (offMinutes : Option Int)
  | raw (c : Cell)
  | pylist (xs : List PyVal)

/-- Failures of the typed mapper.  typeMappingError is modelled from
the spec: the source's except-ValueError branch is broken (it
evaluates the undefined expression prestodb/client.py(error_str));
per the spec the replacement raises TypeMappingError carrying the
offending value and the rawType.  pyError models any other Python
exception escaping the mapper. -/
inductive MapErr where
  | typeMappingError (value : Cell) (rawType : List Nat)
  | pyError (s : String)

/-- The timestamp-with-time-zone branch when the trailing token starts
with a sign: the whole value is reparsed with the %z format; an
out-of-range offset makes the timezone constructor raise ValueError. -/
def tsWithOffset (v : Cell) (rt : List Nat) (s : List Nat) : Except MapErr PyVal :=
  match parseTimestampRem s with
  | some ((y, mo, d), (h, mi, sec, f), 32 :: zrest) =>
    match parseZOffset zrest with
    | some off =>
      if off.natAbs < 1440 then .ok (.aware y mo d h mi sec f off)
      else .error (.typeMappingError v rt)
    | none => .error (.typeMappingError v rt)
  | _ => .error (.typeMappingError v rt)

/-- The timestamp-with-time-zone branch (client.py lines 514-518):
rsplit on the last space; a missing space makes the tuple unpacking
raise ValueError; a signed trailing token goes through the %z format,
any other token names a pytz zone attached to the naive timestamp
(the zone-name validation done inside pytz is elided; no claim
exercises an unknown zone). -/
def mapTsWithTz (v : Cell) (rt : List Nat) (s : List Nat) : Except MapErr PyVal :=
  match rsplitSpace1 s with
  | none => .error (.typeMappingError v rt)
  | some (dt, tz) =>
    match tz with
    | 43 :: _ => tsWithOffset v rt s
    | 45 :: _ => tsWithOffset v rt s
    | _ =>
      match parseTimestampFull dt with
      | some ((y, mo, d), (h, mi, sec, f)) => .ok (.awareNamed y mo d h mi sec f tz)
      | none => .error (.typeMappingError v rt)

/-- The non-null non-list arm of _map_to_python_type: the elif chain on
rawType (client.py lines 510-533), with the with-time-zone variants
tested before the bare timestamp and time substrings.  The regex of
the time-with-time-zone branch is modelled from the spec as available:
the source uses re.match but never imports re, so at run time that
branch raises NameError.  A failed regex match trips the assert
(AssertionError, not ValueError).  A non-string value in a strptime
branch raises outside ValueError and is modelled as pyError. -/
def mapScalar (v : Cell) (ts : TypeSig) : Except MapErr PyVal :=
  let rt := ts.rawType
  if containsSeq (strB "decimal") rt then
    match v with
    | .str s =>
      match parseDecimal s with
      | some p => .ok (.dec p.1 p.2)
      | none => .error (.pyError "decimal.InvalidOperation")
    | .num n => .ok (.dec n 0)
    | .boolean b => .ok (.dec (if b then 1 else 0) 0)
    | _ => .error (.pyError "unreachable")
  else if rt = strB "date" then
    match v with
    | .str s =>
      match parseDateFull s with
      | some (y, mo, d) => .ok (.date y mo d)
      | none => .error (.typeMappingError v rt)
    | _ => .error (.pyError "TypeError")
  else if rt = strB "timestamp with time zone" then
    match v with
    | .str s => mapTsWithTz v rt s
    | _ => .error (.pyError "AttributeError")
  else if containsSeq (strB "timestamp") rt then
    match v with
    | .str s =>
      match parseTimestampFull s with
      | some ((y, mo, d), (h, mi, sec, f)) => .ok (.naive y mo d h mi sec f)
      | none => .error (.typeMappingError v rt)
    | _ => .error (.pyError "TypeError")
  else if containsSeq (strB "time with time zone") rt then
    match v with
    | .str s =>
      match timeTzMatch s with
      | none => .error (.pyError "AssertionError")
      | some (g1, sign, hh, mm) =>
        match parseHMSf g1 with
        | none => .error (.typeMappingError v rt)
        | some (h, mi, sec, f) =>
          let off : Int := (hh * 60 + mm : Nat)
          let off' := if sign = 45 then -off else off
          if off'.natAbs < 1440 then .ok (.time h mi sec f (some off'))
          else .error (.typeMappingError v rt)
    | _ => .error (.pyError "TypeError")
  else if containsSeq (strB "time") rt then
    match v with
    | .str s =>
      match parseHMSf s with
      | some (h, mi, sec, f) => .ok (.time h mi sec f none)
      | none => .error (.typeMappingError v rt)
    | _ => .error (.pyError "TypeError")
  else .ok (.raw v)

mutual

/-- PrestoResult._map_to_python_type (client.py lines 495-536): None
maps to None; a list recurses with the first type argument as the
element signature (an absent argument raises IndexError); otherwise
the scalar elif chain applies. -/
def mapCell : Cell → TypeSig → Except MapErr PyVal
  | .null, _ => .ok .pyNone
  | .list xs, ts =>
    match ts.args with
    | [] => .error (.pyError "IndexError")
    | arg :: _ =>
      match mapCellList xs arg with
      | .error e => .error e
      | .ok vs => .ok (.pylist vs)
  | .str s, ts => mapScalar (.str s) ts
  | .num n, ts => mapScalar (.num n) ts
  | .boolean b, ts => mapScalar (.boolean b) ts

/-- The list comprehension inside the list branch: map each element,
propagating the first failure. -/
def mapCellList : List Cell → TypeSig → Except MapErr (List PyVal)
  | [], _ => .ok []
  | x :: xs, arg =>
    match mapCell x arg with
    | .error e => .error e
    | .ok val =>
      match mapCellList xs arg with
      | .error e => .error e
      | .ok vs => .ok (val :: vs)

end

/-- One pass of list(map(...)) over the zipped row: map each cell,
propagating the first failure and dropping the later cells. -/
def mapZipped : List (Cell × ColumnDesc) → Except MapErr (List PyVal)
  | [] => .ok []
  | (c, col) :: rest =>
    match mapCell c col.typeSignature with
    | .error e => .error e
    | .ok v =>
      match mapZipped rest with
      | .error e => .error e
      | .ok vs => .ok (v :: vs)

/-- PrestoResult._map_to_python_types (client.py lines 538-539): zip
the row with the column descriptors and map each cell, aborting the
iteration at the first failing cell. -/
def map_to_python_types (row : List Cell) (columns : List ColumnDesc) :
    Except MapErr (List PyVal) :=
  mapZipped (List.zip row columns)

/-! ## Concrete protocol data used by witnesses -/

/-- A session whose extra headers use the names of the transaction and
prepared-statement protocol headers. -/
def c7Session : ClientSessionM :=
  { user := some "alice", catalog := none, schema := none, source := none,
    properties := [],
    headers := [(.transactionId, "boom"), (.preparedStatement, "ps")],
    transaction_id := some "NONE" }

/-- The total of len(data) over the POST response and every poll. -/
def totalRows (post : MockResponse) (polls : List MockResponse) : Nat :=
  ((post :: polls).map (fun r => (dataOf r).length)).sum

/-- The POST response of the spec's scenario S1. -/
def c1Post : MockResponse :=
  { status_code := 200, content := "", clearSessionHdr := none,
    setSessionHdr := none, addedPrepareHdr := none,
    body := some { id := some "q1", infoUri := some "/ui/q1",
                   nextUri := some "/v1/statement/q1/1",
                   stats := some [("state", "QUEUED")], warnings := none,
                   dataRows := none, columns := none, error := none } }

/-- The first poll response of scenario S1. -/
def c1Poll1 : MockResponse :=
  { status_code := 200, content := "", clearSessionHdr := none,
    setSessionHdr := none, addedPrepareHdr := none,
    body := some { id := some "q1", infoUri := some "/ui/q1",
                   nextUri := some "/v1/statement/q1/2",
                   stats := some [("state", "RUNNING")], warnings := none,
                   dataRows := some [[.num 1], [.num 2]],
                   columns := some [⟨strB "x", .mk (strB "bigint") []⟩],
                   error := none } }

/-- The final poll response of scenario S1 (no nextUri). -/
def c1Poll2 : MockResponse :=
  { status_code := 200, content := "", clearSessionHdr := none,
    setSessionHdr := none, addedPrepareHdr := none,
    body := some { id := some "q1", infoUri := some "/ui/q1", nextUri := none,
                   stats := some [("state", "FINISHED")], warnings := none,
                   dataRows := some [[.num 3]], columns := none, error := none } }

/-- The request state entering the C2 witness scenario. -/
def c2St : ReqState :=
  { props := [(strB "b", strB "1")], next_uri := some "/v1/statement/q1/1",
    transport_prepared := none }

/-- The response of the C2 witness scenario (the spec's S4): it clears
the property old and sets a to the percent-encoded hello,world. -/
def c2Resp : MockResponse :=
  { status_code := 200, content := "",
    clearSessionHdr := some (strB "old"),
    setSessionHdr := some (strB "a=hello%2Cworld"),
    addedPrepareHdr := none,
    body := some { id := some "q1", infoUri := some "/ui/q1",
                   nextUri := some "/v1/statement/q1/2",
                   stats := some [], warnings := none, dataRows := none,
                   columns := none, error := none } }

/-! ## Lemmas about processing clean responses -/

theorem processE_clean (st : ReqState) (r : MockResponse) (h : cleanResp r = true) :
    processE st r = (.ok (statusOf r), reqAfter st r) := by
  unfold cleanResp at h
  cases hb : r.body with
  | none => rw [hb] at h; simp at h
  | some b =>
    simp only [hb, Bool.and_eq_true] at h
    obtain ⟨hok, ⟨⟨⟨⟨herr, hid⟩, hstats⟩, hinfo⟩, hset⟩⟩ := h
    obtain ⟨i, hi⟩ := Option.isSome_iff_exists.mp hid
    obtain ⟨sts, hsts⟩ := Option.isSome_iff_exists.mp hstats
    obtain ⟨iu, hiu⟩ := Option.isSome_iff_exists.mp hinfo
    have herr' : b.error = none := by
      cases he : b.error with
      | none => rfl
      | some e => rw [he] at herr; simp at herr
    revert hset
    cases hsh : r.setSessionHdr with
    | none =>
      intro _
      simp [processE, statusOf, reqAfter, propsAfter, prepAfter, nextOf,
            hok, hb, herr', hsh, hi, hsts, hiu]
    | some hdr =>
      intro hset
      obtain ⟨pairs, hpairs⟩ := Option.isSome_iff_exists.mp hset
      simp [processE, statusOf, reqAfter, propsAfter, prepAfter, nextOf,
            hok, hb, herr', hsh, hpairs, hi, hsts, hiu]

theorem statusOf_rows (r : MockResponse) : (statusOf r).rows = dataOf r := by
  unfold statusOf dataOf; cases r.body <;> rfl

theorem statusOf_next_uri (r : MockResponse) : (statusOf r).next_uri = nextOf r := by
  unfold statusOf nextOf; cases r.body <;> rfl

theorem fetchE_clean (q : QState) (r : MockResponse) (u : String)
    (hnu : q.req.next_uri = some u) (h : cleanResp r = true) :
    fetchE q r = (.ok (statusOf r).rows,
      { q with req := reqAfter q.req r,
               columns := if colTruthy (statusOf r).columns then (statusOf r).columns
                          else q.columns,
               stats := dictUpdate q.stats (statusOf r).stats,
               finished := if (statusOf r).next_uri.isNone then true else q.finished }) := by
  simp only [fetchE, hnu, processE_clean q.req r h]

/-! ## C3: classification of errors embedded in 2xx responses -/

/-- C3: processing a 2xx response whose JSON body carries an error
field never yields a Status: process raises the classified error
(UserError for USER_ERROR carrying the query id when present,
ExternalError raised eagerly inside the helper for EXTERNAL,
QueryError otherwise), and the request state, in particular the
session, is left untouched, so the session header mutations of such a
response are not applied. -/
theorem c3_embedded_error_classification (st : ReqState) (r : MockResponse)
    (b : RespBody) (e : ErrInfo)
    (hlo : 200 ≤ r.status_code) (hhi : r.status_code < 300)
    (hb : r.body = some b) (he : b.error = some e) :
    processE st r = (.error (raisedOf (process_error e b.id)), st)
    ∧ (e.errorType = "USER_ERROR" →
        raisedOf (process_error e b.id) = .userError (.obj e) b.id)
    ∧ (e.errorType = "EXTERNAL" →
        process_error e b.id = .error (.externalError e b.id))
    ∧ (e.errorType ≠ "USER_ERROR" → e.errorType ≠ "EXTERNAL" →
        raisedOf (process_error e b.id) = .queryError e b.id) := by
  have hok : respOk r = true := by
    unfold respOk
    simp only [decide_eq_true_eq]
    omega
  refine ⟨?_, ?_, ?_, ?_⟩
  · simp [processE, hok, hb, he]
  · intro h
    unfold process_error
    rw [h, if_neg (by decide), if_pos rfl]
    rfl
  · intro h
    unfold process_error
    rw [h, if_pos rfl]
  · intro h1 h2
    unfold process_error
    rw [if_neg h2, if_neg h1]
    rfl

/-- Witness for C3 at a concrete 200 response carrying a USER_ERROR. -/
theorem c3_witness :
    processE { props := [], next_uri := none, transport_prepared := none }
      { status_code := 200, content := "", clearSessionHdr := none,
        setSessionHdr := none, addedPrepareHdr := none,
        body := some { id := some "q2", infoUri := some "/ui/q2", nextUri := none,
                       stats := some [], warnings := none, dataRows := none,
                       columns := none,
                       error := some { errorType := "USER_ERROR", message := "syntax" } } }
      = (.error (raisedOf (process_error { errorType := "USER_ERROR", message := "syntax" }
          (some "q2"))), { props := [], next_uri := none, transport_prepared := none })
    ∧ raisedOf (process_error { errorType := "USER_ERROR", message := "syntax" } (some "q2"))
      = .userError (.obj { errorType := "USER_ERROR", message := "syntax" }) (some "q2") := by
  have h := c3_embedded_error_classification
    { props := [], next_uri := none, transport_prepared := none }
    { status_code := 200, content := "", clearSessionHdr := none,
      setSessionHdr := none, addedPrepareHdr := none,
      body := some { id := some "q2", infoUri := some "/ui/q2", nextUri := none,
                     stats := some [], warnings := none, dataRows := none,
                     columns := none,
                     error := some { errorType := "USER_ERROR", message := "syntax" } } }
    { id := some "q2", infoUri := some "/ui/q2", nextUri := none,
      stats := some [], warnings := none, dataRows := none, columns := none,
      error := some { errorType := "USER_ERROR", message := "syntax" } }
    { errorType := "USER_ERROR", message := "syntax" }
    (by decide) (by decide) rfl rfl
  exact ⟨h.1, h.2.1 rfl⟩

/-! ## C5: sticky columns -/

/-- C5: once the query holds a non-empty column list, a clean fetch
whose response carries absent-or-null columns or an empty column list
leaves the query's columns unchanged, while a non-empty list replaces
them. -/
theorem c5_sticky_columns (q : QState) (r : MockResponse) (b : RespBody)
    (cols : List ColumnDesc) (u : String)
    (hnu : q.req.next_uri = some u)
    (hclean : cleanResp r = true) (hb : r.body = some b)
    (hcols : q.columns = some cols) (_hne : cols ≠ []) :
    ∃ rows q', fetchE q r = (.ok rows, q')
    ∧ ((b.columns = none ∨ b.columns = some []) → q'.columns = some cols)
    ∧ (∀ cs, b.columns = some cs → cs ≠ [] → q'.columns = some cs) := by
  have hcolsof : (statusOf r).columns = b.columns := by
    simp [statusOf, hb]
  refine ⟨_, _, fetchE_clean q r u hnu hclean, ?_, ?_⟩
  · intro hcase
    rcases hcase with hnone | hempty
    · simp [hcolsof, hnone, colTruthy, hcols]
    · simp [hcolsof, hempty, colTruthy, hcols]
  · intro cs hcs hcsne
    cases cs with
    | nil => exact absurd rfl hcsne
    | cons c0 crest => simp [hcolsof, hcs, colTruthy]

/-- Witness for C5: a query that latched one column keeps it across a
clean poll whose body has no columns field. -/
theorem c5_witness :
    ∃ rows q', fetchE
      { req := { props := [], next_uri := some "/v1/statement/q1/2",
                 transport_prepared := none },
        query_id := some "q1",
        columns := some [⟨strB "x", .mk (strB "bigint") []⟩],
        stats := [], warnings := [], finished := false, cancelled := false }
      { status_code := 200, content := "", clearSessionHdr := none,
        setSessionHdr := none, addedPrepareHdr := none,
        body := some { id := some "q1", infoUri := some "/ui/q1", nextUri := none,
                       stats := some [], warnings := none,
                       dataRows := some [[.num 3]], columns := none, error := none } }
      = (.ok rows, q')
    ∧ q'.columns = some [⟨strB "x", .mk (strB "bigint") []⟩] := by
  obtain ⟨rows, q', heq, hkeep, _⟩ := c5_sticky_columns
    { req := { props := [], next_uri := some "/v1/statement/q1/2",
               transport_prepared := none },
      query_id := some "q1",
      columns := some [⟨strB "x", .mk (strB "bigint") []⟩],
      stats := [], warnings := [], finished := false, cancelled := false }
    { status_code := 200, content := "", clearSessionHdr := none,
      setSessionHdr := none, addedPrepareHdr := none,
      body := some { id := some "q1", infoUri := some "/ui/q1", nextUri := none,
                     stats := some [], warnings := none,
                     dataRows := some [[.num 3]], columns := none, error := none } }
    { id := some "q1", infoUri := some "/ui/q1", nextUri := none,
      stats := some [], warnings := none,
      dataRows := some [[.num 3]], columns := none, error := none }
    [⟨strB "x", .mk (strB "bigint") []⟩] "/v1/statement/q1/2"
    rfl (by decide) rfl rfl (by simp)
  exact ⟨rows, q', heq, hkeep (Or.inl rfl)⟩

/-! ## C6 and C10: cancellation -/

/-- C6: cancel on a query whose query_id is unset or which is already
finished returns without issuing any HTTP request and without changing
state; on a running query with a known query_id it issues exactly one
DELETE to /v1/query/query_id, a 204 response completes silently, and
any other status raises through raise_response_error. -/
theorem c6_cancel (cfg : ReqConfig) (q : QState) (d : DeleteOutcome) :
    (q.query_id = none → cancelQ cfg q d = (q, [], .ok ()))
    ∧ (q.finished = true → cancelQ cfg q d = (q, [], .ok ()))
    ∧ (∀ qid, q.query_id = some qid → q.finished = false →
        (cancelQ cfg q d).2.1 = [get_url cfg ("/v1/query/" ++ qid)]
        ∧ (∀ content, d = .resp 204 content → (cancelQ cfg q d).2.2 = .ok ())
        ∧ (∀ s content, d = .resp s content → s ≠ 204 →
            (cancelQ cfg q d).2.2 = .error (raise_response_error s content))) := by
  refine ⟨?_, ?_, ?_⟩
  · intro h
    simp [cancelQ, h]
  · intro h
    cases hqid : q.query_id with
    | none => simp [cancelQ, hqid]
    | some qid => simp [cancelQ, hqid, h]
  · intro qid hqid hfin
    refine ⟨?_, ?_, ?_⟩
    · cases d with
      | exc => simp [cancelQ, hqid, hfin]
      | resp s content =>
        by_cases h204 : s = 204 <;> simp [cancelQ, hqid, hfin, h204]
    · intro content hd
      subst hd
      simp [cancelQ, hqid, hfin]
    · intro s content hd hs
      subst hd
      simp [cancelQ, hqid, hfin, hs]

/-- Witness for C6: a finished query with a known id is a no-op, and a
running query issues exactly one DELETE whose 500 answer raises. -/
theorem c6_witness :
    (cancelQ ⟨"http", "coordinator", 8080⟩
      { req := { props := [], next_uri := none, transport_prepared := none },
        query_id := some "q1", columns := none, stats := [], warnings := [],
        finished := true, cancelled := false } (.resp 500 "oops")
      = ({ req := { props := [], next_uri := none, transport_prepared := none },
           query_id := some "q1", columns := none, stats := [], warnings := [],
           finished := true, cancelled := false }, [], .ok ()))
    ∧ (cancelQ ⟨"http", "coordinator", 8080⟩
        { req := { props := [], next_uri := some "/v1/statement/q1/1",
                   transport_prepared := none },
          query_id := some "q1", columns := none, stats := [], warnings := [],
          finished := false, cancelled := false } (.resp 500 "oops")).2.1
      = ["http://coordinator:8080/v1/query/q1"]
    ∧ (cancelQ ⟨"http", "coordinator", 8080⟩
        { req := { props := [], next_uri := some "/v1/statement/q1/1",
                   transport_prepared := none },
          query_id := some "q1", columns := none, stats := [], warnings := [],
          finished := false, cancelled := false } (.resp 500 "oops")).2.2
      = .error (raise_response_error 500 "oops") := by
  refine ⟨?_, ?_, ?_⟩
  · exact (c6_cancel ⟨"http", "coordinator", 8080⟩ _ (.resp 500 "oops")).2.1 rfl
  · have h := ((c6_cancel ⟨"http", "coordinator", 8080⟩
      { req := { props := [], next_uri := some "/v1/statement/q1/1",
                 transport_prepared := none },
        query_id := some "q1", columns := none, stats := [], warnings := [],
        finished := false, cancelled := false } (.resp 500 "oops")).2.2
      "q1" rfl rfl).1
    rw [h]
    rfl
  · exact ((c6_cancel ⟨"http", "coordinator", 8080⟩
      { req := { props := [], next_uri := some "/v1/statement/q1/1",
                 transport_prepared := none },
        query_id := some "q1", columns := none, stats := [], warnings := [],
        finished := false, cancelled := false } (.resp 500 "oops")).2.2
      "q1" rfl rfl).2.2 500 "oops" rfl (by decide)

/-- C10: cancelling a running query with a known id sets the cancelled
flag before the DELETE is dispatched, so whatever the DELETE outcome
(transport failure, 204, or any other status) the query stays
cancelled and a subsequent execute raises UserError with the message
Query has been cancelled. -/
theorem c10_cancel_before_delete (cfg : ReqConfig) (q : QState) (d : DeleteOutcome)
    (qid : String) (hq : q.query_id = some qid) (hf : q.finished = false) :
    (cancelQ cfg q d).1.cancelled = true
    ∧ ∀ post polls, executeE (cancelQ cfg q d).1 post polls
        = (.error (.userError (.msg "Query has been cancelled") (some qid)),
           (cancelQ cfg q d).1) := by
  have hstate : (cancelQ cfg q d).1 = { q with cancelled := true } := by
    cases d with
    | exc => simp [cancelQ, hq, hf]
    | resp s content =>
      by_cases h204 : s = 204 <;> simp [cancelQ, hq, hf, h204]
  constructor
  · rw [hstate]
  · intro post polls
    rw [hstate]
    simp [executeE, hq]

/-- Witness for C10: after a cancel whose DELETE dies with a transport
error, the query is still cancelled and execute refuses to run. -/
theorem c10_witness :
    (cancelQ ⟨"http", "coordinator", 8080⟩
      { req := { props := [], next_uri := some "/v1/statement/q1/1",
                 transport_prepared := none },
        query_id := some "q1", columns := none, stats := [], warnings := [],
        finished := false, cancelled := false } .exc).1.cancelled = true
    ∧ executeE (cancelQ ⟨"http", "coordinator", 8080⟩
        { req := { props := [], next_uri := some "/v1/statement/q1/1",
                   transport_prepared := none },
          query_id := some "q1", columns := none, stats := [], warnings := [],
          finished := false, cancelled := false } .exc).1
        { status_code := 200, content := "", clearSessionHdr := none,
          setSessionHdr := none, addedPrepareHdr := none, body := none } []
      = (.error (.userError (.msg "Query has been cancelled") (some "q1")),
         (cancelQ ⟨"http", "coordinator", 8080⟩
           { req := { props := [], next_uri := some "/v1/statement/q1/1",
                      transport_prepared := none },
             query_id := some "q1", columns := none, stats := [], warnings := [],
             finished := false, cancelled := false } .exc).1) := by
  have h := c10_cancel_before_delete ⟨"http", "coordinator", 8080⟩
    { req := { props := [], next_uri := some "/v1/statement/q1/1",
               transport_prepared := none },
      query_id := some "q1", columns := none, stats := [], warnings := [],
      finished := false, cancelled := false } .exc "q1" rfl rfl
  exact ⟨h.1, h.2 _ _⟩

/-! ## C8 and C9: the typed row mapper error path and the
time-with-time-zone branch.

Both claims hit planted bugs in the source: the except-ValueError
branch evaluates the undefined expression prestodb/client.py(error_str)
(a NameError at run time), and the time-with-time-zone branch calls
re.match although the module never imports re (also a NameError).  The
theorems below state what the spec-intended code does on the relevant
inputs, over the mapper whose two broken spots are modelled from the
spec as documented on MapErr and mapScalar. -/

/-- C8: a non-null cell whose strptime conversion fails with
ValueError raises TypeMappingError carrying the offending value and
the column's rawType, and mapping the row aborts at that cell (the
third cell of the row is never reached). -/
theorem c8_type_mapping_error :
    mapCell (.str (strB "oops")) (.mk (strB "date") [])
      = .error (.typeMappingError (.str (strB "oops")) (strB "date"))
    ∧ map_to_python_types
        [.str (strB "1.50"), .str (strB "oops"), .str (strB "2023-06-01")]
        [⟨strB "c0", .mk (strB "decimal(10,2)") []⟩,
         ⟨strB "c1", .mk (strB "date") []⟩,
         ⟨strB "c2", .mk (strB "date") []⟩]
      = .error (.typeMappingError (.str (strB "oops")) (strB "date")) :=
  ⟨rfl, rfl⟩

/-- C9: on a value matching the anchored time-with-offset pattern the
mapper parses group 1 as a wall-clock time and attaches the fixed
offset built from the trailing groups; in particular the spec's S5
time cell maps to 12:34:56.789000 at +02:00 (offset 120 minutes). -/
theorem c9_time_with_time_zone :
    mapCell (.str (strB "12:34:56.789000+02:00")) (.mk (strB "time with time zone") [])
      = .ok (.time 12 34 56 789000 (some 120))
    ∧ mapCell (.str (strB "01:02:03.400000-09:30")) (.mk (strB "time with time zone") [])
      = .ok (.time 1 2 3 400000 (some (-570))) :=
  ⟨rfl, rfl⟩

/-! ## C4: retry discipline -/

theorem retryGo_le (server : Nat → AttemptResult) :
    ∀ remaining k, 1 ≤ remaining → (retryGo server k remaining).2 ≤ k + (remaining - 1) := by
  intro remaining
  induction remaining with
  | zero => intro k h; omega
  | succ n ih =>
    intro k _
    unfold retryGo
    by_cases hc : (retriable (server k) && decide (n > 0)) = true
    · rw [if_pos hc]
      simp only [Bool.and_eq_true, decide_eq_true_eq] at hc
      have := ih (k + 1) (by omega)
      omega
    · rw [if_neg hc]
      omega

theorem retryGo_exact (server : Nat → AttemptResult) (N : Nat)
    (h200 : server N = .resp 200)
    (h503 : ∀ i, 1 ≤ i → i < N → server i = .resp 503) :
    ∀ remaining k, 1 ≤ k → k + remaining = N + 1 → 1 ≤ remaining →
    retryGo server k remaining = (.resp 200, N) := by
  intro remaining
  induction remaining with
  | zero => intro k _ _ h; omega
  | succ n ih =>
    intro k hk hsum _
    unfold retryGo
    by_cases hkN : k = N
    · subst hkN
      rw [h200]
      have hn : n = 0 := by omega
      subst hn
      simp [retriable]
    · have hklt : k < N := by omega
      rw [h503 k hk hklt]
      have hn : 0 < n := by omega
      have hr : (retriable (AttemptResult.resp 503) && decide (n > 0)) = true := by
        simp [retriable, hn]
      rw [if_pos hr]
      exact ih (k + 1) (by omega) (by omega) (by omega)

/-- C4: with max_attempts N greater than one and a server answering
503 on the first N-1 attempts and 200 on attempt N, one wrapped call
succeeds after exactly N attempts; the attempt count never exceeds
max_attempts; and a first-attempt response that is not a 503 (any
other 4xx or 5xx included) is returned at once after one attempt. -/
theorem c4_retry_attempts (N : Nat) (server : Nat → AttemptResult)
    (hN : 1 < N)
    (h503 : ∀ i, 1 ≤ i → i < N → server i = .resp 503)
    (h200 : server N = .resp 200) :
    callWithRetry N server = (.resp 200, N)
    ∧ (∀ M srv, 1 ≤ M → (callWithRetry M srv).2 ≤ M)
    ∧ (∀ srv s, srv 1 = .resp s → s ≠ 503 → callWithRetry N srv = (.resp s, 1)) := by
  refine ⟨?_, ?_, ?_⟩
  · unfold callWithRetry
    rw [if_neg (by omega)]
    exact retryGo_exact server N h200 h503 N 1 (by omega) (by omega) (by omega)
  · intro M srv hM
    unfold callWithRetry
    by_cases h1 : M = 1
    · rw [if_pos h1]; omega
    · rw [if_neg h1]
      have := retryGo_le srv M 1 (by omega)
      omega
  · intro srv s hs hs503
    unfold callWithRetry
    rw [if_neg (by omega)]
    obtain ⟨n, rfl⟩ : ∃ n, N = n + 1 := ⟨N - 1, by omega⟩
    unfold retryGo
    rw [hs]
    have hr : (retriable (AttemptResult.resp s) && decide (n > 0)) = false := by
      simp [retriable, hs503]
    rw [if_neg (by rw [hr]; exact Bool.false_ne_true)]

/-- Witness for C4 at N = 3 with a server giving two 503s then a 200,
and a server giving a 404 on the first attempt. -/
theorem c4_witness :
    callWithRetry 3 (fun i => if i < 3 then .resp 503 else .resp 200) = (.resp 200, 3)
    ∧ callWithRetry 3 (fun _ => .resp 404) = (.resp 404, 1) := by
  have h := c4_retry_attempts 3 (fun i => if i < 3 then .resp 503 else .resp 200)
    (by omega)
    (by intro i h1 h3; simp only []; rw [if_pos h3])
    (by simp)
  exact ⟨h.1, h.2.2 (fun _ => .resp 404) 404 rfl (by omega)⟩

/-! ## C7: reserved header collisions -/

/-- Counterexample to C7 as stated: an extra header equal to the
reserved X-Presto-Transaction-Id (or, with no registered prepared
statement, X-Presto-Prepared-Statement) does not fail, because the
collision check runs before the transaction header is written and the
prepared-statement header is only present when a prepared statement
is registered; http_headers produces a header set. -/
theorem c7_counterexample : ∃ hs, http_headers c7Session [] = .ok hs :=
  ⟨_, rfl⟩

/-- C7 amended: building the request headers fails exactly when some
extra header key is X-Presto-Catalog, X-Presto-Schema, X-Presto-Source,
X-Presto-User or X-Presto-Session, or is X-Presto-Prepared-Statement
while a prepared statement is registered; a key equal to
X-Presto-Transaction-Id never fails (the transaction header is written
after the merge, silently overwriting it). -/
theorem c7_amended (cs : ClientSessionM) (ps : List String) :
    (∃ err, http_headers cs ps = .error err) ↔
    (∃ p ∈ cs.headers,
      p.1 = HeaderName.catalog ∨ p.1 = HeaderName.schema ∨ p.1 = HeaderName.source ∨
      p.1 = HeaderName.user ∨ p.1 = HeaderName.session ∨
      (p.1 = HeaderName.preparedStatement ∧ ps ≠ [])) := by
  have hmem : ∀ k : HeaderName,
      (dictGet (reservedHeaderDict cs ps) k).isSome = true ↔
      (k = HeaderName.catalog ∨ k = HeaderName.schema ∨ k = HeaderName.source ∨
       k = HeaderName.user ∨ k = HeaderName.session ∨
       (k = HeaderName.preparedStatement ∧ ps ≠ [])) := by
    intro k
    by_cases hps : ps.length > 0
    · have hne : ps ≠ [] := by
        cases ps with
        | nil => simp at hps
        | cons a l => exact List.cons_ne_nil a l
      cases k <;> simp [reservedHeaderDict, dictGet, dictInsert, hps, hne]
    · have hnil : ps = [] := by
        cases ps with
        | nil => rfl
        | cons a l => simp at hps
      subst hnil
      cases k <;> simp [reservedHeaderDict, dictGet, dictInsert]
  have hiff : (∃ err, http_headers cs ps = .error err) ↔
      cs.headers.any (fun p => (dictGet (reservedHeaderDict cs ps) p.1).isSome) = true := by
    unfold http_headers
    by_cases hany : cs.headers.any
        (fun p => (dictGet (reservedHeaderDict cs ps) p.1).isSome) = true
    · simp [hany]
    · simp [hany]
  rw [hiff, List.any_eq_true]
  constructor
  · rintro ⟨p, hp, hmem'⟩
    exact ⟨p, hp, (hmem p.1).mp hmem'⟩
  · rintro ⟨p, hp, hd⟩
    exact ⟨p, hp, (hmem p.1).mpr hd⟩

/-! ## C1: rows yielded, rows received, and the rownumber counter -/

theorem iterYields_length (rows : List (List Cell)) :
    ∀ n, (iterYields n rows).length = rows.length := by
  induction rows with
  | nil => intro n; rfl
  | cons r rest ih => intro n; simp [iterYields, ih]

theorem iterYields_fst (rows : List (List Cell)) :
    ∀ n, (iterYields n rows).map Prod.fst = List.range' (n + 1) rows.length := by
  induction rows with
  | nil => intro n; rfl
  | cons r rest ih =>
    intro n
    simp [iterYields, ih, List.range'_succ]

theorem executeLoop_ok :
    ∀ (polls : List MockResponse) (q : QState) (acc : List (List Cell)),
    q.cancelled = false →
    (q.finished = false → q.req.next_uri.isSome = true) →
    pollsWf q.finished polls = true →
    ∃ qf, executeLoop q acc polls = (.ok (acc ++ (polls.map dataOf).flatten), qf)
      ∧ qf.finished = true ∧ qf.cancelled = false := by
  intro polls
  induction polls with
  | nil =>
    intro q acc hc _ hwf
    cases hf : q.finished with
    | false => rw [hf] at hwf; simp [pollsWf] at hwf
    | true =>
      refine ⟨q, ?_, hf, hc⟩
      simp [executeLoop, hf, hc]
  | cons r rest ih =>
    intro q acc hc hinv hwf
    cases hf : q.finished with
    | true =>
      rw [hf] at hwf
      simp [pollsWf] at hwf
    | false =>
      rw [hf] at hwf
      simp only [pollsWf, Bool.and_eq_true] at hwf
      obtain ⟨hclean, hwf'⟩ := hwf
      obtain ⟨u, hu⟩ := Option.isSome_iff_exists.mp (hinv hf)
      have hfe := fetchE_clean q r u hu hclean
      have hstep : executeLoop q acc (r :: rest)
          = executeLoop
              { q with req := reqAfter q.req r,
                       columns := if colTruthy (statusOf r).columns then (statusOf r).columns
                                  else q.columns,
                       stats := dictUpdate q.stats (statusOf r).stats,
                       finished := if (statusOf r).next_uri.isNone then true else q.finished }
              (acc ++ (statusOf r).rows) rest := by
        simp [executeLoop, hf, hc, hfe]
      have hfin : (if (statusOf r).next_uri.isNone then true else q.finished)
          = (nextOf r).isNone := by
        rw [statusOf_next_uri, hf]
        cases (nextOf r).isNone <;> rfl
      obtain ⟨qf, heq, hqf, hqc⟩ := ih
        { q with req := reqAfter q.req r,
                 columns := if colTruthy (statusOf r).columns then (statusOf r).columns
                            else q.columns,
                 stats := dictUpdate q.stats (statusOf r).stats,
                 finished := if (statusOf r).next_uri.isNone then true else q.finished }
        (acc ++ (statusOf r).rows) hc
        (by
          intro hfe'
          simp only [hfin] at hfe'
          simp [reqAfter]
          cases hn : nextOf r with
          | none => rw [hn] at hfe'; simp at hfe'
          | some v => simp [hn])
        (by simp only [hfin]; exact hwf')
      refine ⟨qf, ?_, hqf, hqc⟩
      rw [hstep, heq]
      simp [statusOf_rows, List.append_assoc]

/-- C1: for every query that completes without error (a clean POST
response and a well-formed chain of clean polls), the rows of the
Result buffer are the concatenation of data over all responses
received, so iterating the Result yields exactly the sum of len(data)
over the POST response plus every poll; the one-based rownumber
counter ends at that total and takes the values one to the total, one
step per yielded row. -/
theorem c1_row_count (props0 : List (List Nat × List Nat)) (post : MockResponse)
    (polls : List MockResponse)
    (hpost : cleanResp post = true)
    (hwf : pollsWf (nextOf post).isNone polls = true) :
    ∃ qf ys,
      executeE (freshQuery props0) post polls
        = (.ok (dataOf post ++ (polls.map dataOf).flatten), qf)
      ∧ resultIter qf (dataOf post ++ (polls.map dataOf).flatten) []
        = .ok (ys, totalRows post polls, qf)
      ∧ ys.length = totalRows post polls
      ∧ ys.map Prod.fst = List.range' 1 (totalRows post polls) := by
  have hlen : (dataOf post ++ (polls.map dataOf).flatten).length
      = totalRows post polls := by
    simp [totalRows, List.length_append, List.length_flatten, List.map_map,
          Function.comp_def]
  have hq1 : executeE (freshQuery props0) post polls
      = executeLoop
          { freshQuery props0 with
            req := reqAfter (freshQuery props0).req post,
            query_id := some (statusOf post).id,
            stats := dictUpdate (dictInsert (freshQuery props0).stats "queryId"
              (statusOf post).id) (statusOf post).stats,
            warnings := (statusOf post).warnings,
            finished := if (statusOf post).next_uri.isNone then true
                        else (freshQuery props0).finished }
          (statusOf post).rows polls := by
    simp [executeE, freshQuery, processE_clean _ _ hpost]
  have hfin : (if (statusOf post).next_uri.isNone then true
      else (freshQuery props0).finished) = (nextOf post).isNone := by
    rw [statusOf_next_uri]
    cases (nextOf post).isNone <;> rfl
  obtain ⟨qf, heq, hqf, _⟩ := executeLoop_ok polls
    { freshQuery props0 with
      req := reqAfter (freshQuery props0).req post,
      query_id := some (statusOf post).id,
      stats := dictUpdate (dictInsert (freshQuery props0).stats "queryId"
        (statusOf post).id) (statusOf post).stats,
      warnings := (statusOf post).warnings,
      finished := if (statusOf post).next_uri.isNone then true
                  else (freshQuery props0).finished }
    (statusOf post).rows rfl
    (by
      intro hfe'
      simp only [hfin] at hfe'
      simp [reqAfter]
      cases hn : nextOf post with
      | none => rw [hn] at hfe'; simp at hfe'
      | some v => simp [hn])
    (by simp only [hfin]; exact hwf)
  refine ⟨qf, iterYields 0 (dataOf post ++ (polls.map dataOf).flatten), ?_, ?_, ?_, ?_⟩
  · rw [hq1, heq]
    simp [statusOf_rows]
  · unfold resultIter
    simp [iterFetch, hqf, hlen]
  · rw [iterYields_length, hlen]
  · rw [iterYields_fst, hlen]

/-- Witness for C1 at the spec's scenario S1: three rows over three
responses, rownumber one to three. -/
theorem c1_witness :
    ∃ qf ys,
      executeE (freshQuery []) c1Post [c1Poll1, c1Poll2]
        = (.ok [[.num 1], [.num 2], [.num 3]], qf)
      ∧ resultIter qf [[.num 1], [.num 2], [.num 3]] [] = .ok (ys, 3, qf)
      ∧ ys.length = 3
      ∧ ys.map Prod.fst = [1, 2, 3] := by
  have h := c1_row_count [] c1Post [c1Poll1, c1Poll2] (by decide) (by decide)
  exact h

/-! ## C2: percent-encoding and the session header round trip -/
theorem pyUnquote_cons_ne (b : Nat) (l : List Nat) (h : ¬ b = 37) :
    pyUnquote (b :: l) = b :: pyUnquote l := by
  cases l with
  | nil => simp [pyUnquote, h]
  | cons x xs =>
    cases xs with
    | nil => simp [pyUnquote, h]
    | cons y ys => simp [pyUnquote, h]

theorem pyUnquote_cons_hex (d1 d2 : Nat) (l : List Nat)
    (h1 : isHexDigitByte d1 = true) (h2 : isHexDigitByte d2 = true) :
    pyUnquote (37 :: d1 :: d2 :: l) = (hexVal d1 * 16 + hexVal d2) :: pyUnquote l := by
  simp [pyUnquote, h1, h2]

theorem hexPair : ∀ x < 16, isHexDigitByte (hexDigit x) = true ∧ hexVal (hexDigit x) = x := by
  decide

theorem quoteSafe_ne37 (b : Nat) (h : quoteSafe b = true) : ¬ b = 37 := by
  unfold quoteSafe at h
  simp at h
  omega

theorem pyUnquote_pyQuote : ∀ v : List Nat, (∀ b ∈ v, b < 256) →
    pyUnquote (pyQuote v) = v := by
  intro v
  induction v with
  | nil => intro _; rfl
  | cons b rest ih =>
    intro hv
    have hb : b < 256 := hv b (List.mem_cons_self b rest)
    have hrest : ∀ x ∈ rest, x < 256 := fun x hx => hv x (List.mem_cons_of_mem _ hx)
    by_cases hsafe : quoteSafe b = true
    · rw [pyQuote, if_pos hsafe, pyUnquote_cons_ne b _ (quoteSafe_ne37 b hsafe), ih hrest]
    · rw [pyQuote, if_neg hsafe]
      have hd1 := hexPair (b / 16) (by omega)
      have hd2 := hexPair (b % 16) (by omega)
      rw [pyUnquote_cons_hex _ _ _ hd1.1 hd2.1, hd1.2, hd2.2, ih hrest]
      congr 1
      omega
/-! ## Dictionary lemmas for the session property mutations -/

theorem dictGet_insert (d : List (α × β)) (k : α) (v : β) (k' : α) :
    dictGet (dictInsert d k v) k' = if k = k' then some v else dictGet d k' := by
  induction d with
  | nil => simp [dictInsert, dictGet]
  | cons p rest ih =>
    obtain ⟨pk, pv⟩ := p
    by_cases hpk : pk = k
    · subst hpk
      rw [dictInsert, if_pos rfl]
      by_cases hk' : pk = k' <;> simp [dictGet, hk']
    · rw [dictInsert, if_neg hpk]
      by_cases h1 : pk = k'
      · have h2 : ¬ k = k' := fun h => hpk (h1.trans h.symm)
        rw [dictGet, if_pos h1, if_neg h2, dictGet, if_pos h1]
      · rw [dictGet, if_neg h1, ih]
        by_cases h2 : k = k' <;> simp [h2, dictGet, h1]

theorem dictGet_none_not_mem (d : List (α × β)) (k : α)
    (h : dictGet d k = none) : ∀ v, (k, v) ∉ d := by
  induction d with
  | nil => intro v hv; simp at hv
  | cons p rest ih =>
    obtain ⟨pk, pv⟩ := p
    by_cases hpk : pk = k
    · rw [dictGet, if_pos hpk] at h; simp at h
    · rw [dictGet, if_neg hpk] at h
      intro v hv
      rcases List.mem_cons.mp hv with he | hm
      · exact hpk (congrArg Prod.fst he).symm
      · exact ih h v hm

theorem dictGet_some_mem (d : List (α × β)) (k : α) (v : β)
    (h : dictGet d k = some v) : (k, v) ∈ d := by
  induction d with
  | nil => simp [dictGet] at h
  | cons p rest ih =>
    obtain ⟨pk, pv⟩ := p
    by_cases hpk : pk = k
    · rw [dictGet, if_pos hpk] at h
      subst hpk
      rw [Option.some_inj] at h
      subst h
      exact List.mem_cons_self _ _
    · rw [dictGet, if_neg hpk] at h
      exact List.mem_cons_of_mem _ (ih h)

theorem mem_dictPop (d : List (α × β)) (k : α) : ∀ p ∈ dictPop d k, p ∈ d := by
  induction d with
  | nil => intro p hp; simp [dictPop] at hp
  | cons q rest ih =>
    obtain ⟨qk, qv⟩ := q
    intro p hp
    by_cases hqk : qk = k
    · rw [dictPop, if_pos hqk] at hp
      exact List.mem_cons_of_mem _ hp
    · rw [dictPop, if_neg hqk] at hp
      rcases List.mem_cons.mp hp with he | hm
      · exact he ▸ List.mem_cons_self _ _
      · exact List.mem_cons_of_mem _ (ih p hm)

theorem dictPop_keys_sublist (d : List (α × β)) (k : α) :
    ((dictPop d k).map Prod.fst).Sublist (d.map Prod.fst) := by
  induction d with
  | nil => simp [dictPop]
  | cons q rest ih =>
    obtain ⟨qk, qv⟩ := q
    by_cases hqk : qk = k
    · rw [dictPop, if_pos hqk]
      exact (List.Sublist.refl _).cons qk
    · rw [dictPop, if_neg hqk]
      simpa using ih.cons₂ qk

theorem dictGet_pop_self (d : List (α × β)) (k : α)
    (hnd : (d.map Prod.fst).Nodup) : dictGet (dictPop d k) k = none := by
  induction d with
  | nil => rfl
  | cons q rest ih =>
    obtain ⟨qk, qv⟩ := q
    simp only [List.map_cons, List.nodup_cons] at hnd
    by_cases hqk : qk = k
    · rw [dictPop, if_pos hqk]
      subst hqk
      cases hg : dictGet rest qk with
      | none => rfl
      | some v => exact absurd (List.mem_map_of_mem Prod.fst (dictGet_some_mem rest qk v hg)) hnd.1
    · rw [dictPop, if_neg hqk, dictGet, if_neg hqk]
      exact ih hnd.2

theorem dictGet_pop_none (d : List (α × β)) (k n : α)
    (h : dictGet d k = none) : dictGet (dictPop d n) k = none := by
  cases hg : dictGet (dictPop d n) k with
  | none => rfl
  | some v =>
    exact absurd (mem_dictPop d n _ (dictGet_some_mem _ _ _ hg))
      (dictGet_none_not_mem d k h v)

theorem applyClear_get_none_mono (names : List (List Nat)) :
    ∀ (props : List (List Nat × List Nat)) (k : List Nat),
    dictGet props k = none → dictGet (applyClearSession props names) k = none := by
  induction names with
  | nil => intro props k h; exact h
  | cons n rest ih =>
    intro props k h
    exact ih (dictPop props n) k (dictGet_pop_none props k n h)

theorem applyClear_keys_nodup (names : List (List Nat)) :
    ∀ (props : List (List Nat × List Nat)), (props.map Prod.fst).Nodup →
    ((applyClearSession props names).map Prod.fst).Nodup := by
  induction names with
  | nil => intro props h; exact h
  | cons n rest ih =>
    intro props h
    exact ih (dictPop props n) ((dictPop_keys_sublist props n).nodup h)

theorem applyClear_get_none (names : List (List Nat)) :
    ∀ (props : List (List Nat × List Nat)), (props.map Prod.fst).Nodup →
    ∀ k ∈ names, dictGet (applyClearSession props names) k = none := by
  induction names with
  | nil => intro props _ k hk; simp at hk
  | cons n rest ih =>
    intro props hnd k hk
    by_cases hkr : k ∈ rest
    · exact ih (dictPop props n) ((dictPop_keys_sublist props n).nodup hnd) k hkr
    · have hkn : k = n := by
        rcases List.mem_cons.mp hk with he | hm
        · exact he
        · exact absurd hm hkr
      subst hkn
      exact applyClear_get_none_mono rest (dictPop props k) k
        (dictGet_pop_self props k hnd)

theorem mem_applyClear (names : List (List Nat)) :
    ∀ (props : List (List Nat × List Nat)) (p : List Nat × List Nat),
    p ∈ applyClearSession props names → p ∈ props := by
  induction names with
  | nil => intro props p hp; exact hp
  | cons n rest ih =>
    intro props p hp
    exact mem_dictPop props n p (ih (dictPop props n) p hp)

theorem mem_dictInsert (d : List (α × β)) (k : α) (v : β) :
    ∀ p ∈ dictInsert d k v, p ∈ d ∨ p = (k, v) := by
  induction d with
  | nil => intro p hp; simp [dictInsert] at hp; exact Or.inr hp
  | cons q rest ih =>
    obtain ⟨qk, qv⟩ := q
    intro p hp
    by_cases hqk : qk = k
    · rw [dictInsert, if_pos hqk] at hp
      rcases List.mem_cons.mp hp with he | hm
      · exact Or.inr he
      · exact Or.inl (List.mem_cons_of_mem _ hm)
    · rw [dictInsert, if_neg hqk] at hp
      rcases List.mem_cons.mp hp with he | hm
      · exact Or.inl (he ▸ List.mem_cons_self _ _)
      · rcases ih p hm with h1 | h2
        · exact Or.inl (List.mem_cons_of_mem _ h1)
        · exact Or.inr h2

theorem mem_applySet (pairs : List (List Nat × List Nat)) :
    ∀ (props : List (List Nat × List Nat)) (p : List Nat × List Nat),
    p ∈ applySetSession props pairs → p ∈ props ∨ p.1 ∈ pairs.map Prod.fst := by
  induction pairs with
  | nil => intro props p hp; exact Or.inl hp
  | cons kv rest ih =>
    intro props p hp
    rcases ih (dictInsert props kv.1 kv.2) p hp with h1 | h2
    · rcases mem_dictInsert props kv.1 kv.2 p h1 with hm | he
      · exact Or.inl hm
      · exact Or.inr (by rw [he]; simp)
    · exact Or.inr (List.mem_cons_of_mem _ h2)

theorem applySet_get_not_mem (pairs : List (List Nat × List Nat)) :
    ∀ (props : List (List Nat × List Nat)) (k : List Nat),
    k ∉ pairs.map Prod.fst →
    dictGet (applySetSession props pairs) k = dictGet props k := by
  induction pairs with
  | nil => intro props k _; rfl
  | cons kv rest ih =>
    intro props k hk
    simp only [List.map_cons, List.mem_cons] at hk
    push_neg at hk
    rw [applySetSession] at *
    have : dictGet (applySetSession (dictInsert props kv.1 kv.2) rest) k
        = dictGet (dictInsert props kv.1 kv.2) k := ih _ k hk.2
    rw [List.foldl_cons]
    rw [show (rest.foldl (fun d p => dictInsert d p.1 p.2) (dictInsert props kv.1 kv.2))
      = applySetSession (dictInsert props kv.1 kv.2) rest from rfl]
    rw [this, dictGet_insert, if_neg (fun h => hk.1 h.symm)]

theorem applySet_get_mem (pairs : List (List Nat × List Nat)) :
    ∀ (props : List (List Nat × List Nat)) (k : List Nat),
    k ∈ pairs.map Prod.fst →
    ∃ v', dictGet (applySetSession props pairs) k = some v' := by
  induction pairs with
  | nil => intro props k hk; simp at hk
  | cons kv rest ih =>
    intro props k hk
    by_cases hkr : k ∈ rest.map Prod.fst
    · exact ih (dictInsert props kv.1 kv.2) k hkr
    · have hkkv : kv.1 = k := by
        simp only [List.map_cons, List.mem_cons] at hk
        rcases hk with he | hm
        · exact he.symm
        · exact absurd hm hkr
      refine ⟨kv.2, ?_⟩
      rw [show applySetSession props (kv :: rest)
        = applySetSession (dictInsert props kv.1 kv.2) rest from rfl]
      rw [applySet_get_not_mem rest _ k hkr, dictGet_insert, if_pos hkkv]
/-! ## Parsing lemmas for Set-Session entries -/

theorem mem_stripBytes (l : List Nat) : ∀ b ∈ stripBytes l, b ∈ l := by
  intro b hb
  unfold stripBytes at hb
  rw [List.mem_reverse] at hb
  have h1 := (List.dropWhile_sublist (l := (l.dropWhile isSpaceByte).reverse)
    (p := isSpaceByte)).subset hb
  rw [List.mem_reverse] at h1
  exact (List.dropWhile_sublist (l := l) (p := isSpaceByte)).subset h1

theorem splitFirst_no_sep (sep : Nat) :
    ∀ (l x y : List Nat), splitFirst sep l = some (x, y) → sep ∉ x := by
  intro l
  induction l with
  | nil => intro x y h; simp [splitFirst] at h
  | cons b rest ih =>
    intro x y h
    by_cases hb : b = sep
    · rw [splitFirst, if_pos hb] at h
      simp only [Option.some_inj, Prod.mk.injEq] at h
      rw [← h.1]
      simp
    · rw [splitFirst, if_neg hb] at h
      cases hr : splitFirst sep rest with
      | none => rw [hr] at h; simp at h
      | some p =>
        obtain ⟨px, py⟩ := p
        rw [hr] at h
        simp only [Option.map_some', Option.some_inj, Prod.mk.injEq] at h
        rw [← h.1]
        intro hmem
        rcases List.mem_cons.mp hmem with he | hm
        · exact hb he.symm
        · exact ih px py hr hm

theorem mapM_option_mem {σ τ : Type} (f : σ → Option τ) :
    ∀ (l : List σ) (out : List τ), l.mapM f = some out →
    ∀ o ∈ out, ∃ i, i ∈ l ∧ f i = some o := by
  intro l
  induction l with
  | nil =>
    intro out h o ho
    simp only [List.mapM_nil, pure, Option.some_inj] at h
    rw [← h] at ho
    simp at ho
  | cons x xs ih =>
    intro out h o ho
    rw [List.mapM_cons] at h
    cases hfx : f x with
    | none => rw [hfx] at h; simp at h
    | some y =>
      rw [hfx] at h
      cases hxs : xs.mapM f with
      | none => rw [hxs] at h; simp at h
      | some ys =>
        rw [hxs] at h
        have h' : y :: ys = out := by simpa using h
        rw [← h'] at ho
        rcases List.mem_cons.mp ho with he | hm
        · exact ⟨x, List.mem_cons_self _ _, he ▸ hfx⟩
        · obtain ⟨i, hi, hfi⟩ := ih ys hxs o hm
          exact ⟨i, List.mem_cons_of_mem _ hi, hfi⟩

theorem parse_keys_no_eq (sh : List Nat) (pairs : List (List Nat × List Nat))
    (h : get_session_property_values sh = some pairs) :
    ∀ kv ∈ pairs, 61 ∉ kv.1 := by
  intro kv hkv
  unfold get_session_property_values at h
  obtain ⟨i, _, hfi⟩ := mapM_option_mem _ _ _ h kv hkv
  cases hsp : splitFirst 61 i with
  | none => rw [hsp] at hfi; simp at hfi
  | some p =>
    obtain ⟨px, py⟩ := p
    rw [hsp] at hfi
    simp only [Option.map_some', Option.some_inj] at hfi
    rw [← hfi]
    intro hmem
    exact splitFirst_no_sep 61 i px py hsp (mem_stripBytes px 61 hmem)

theorem entry_key_distinct :
    ∀ (k k' : List Nat), k ≠ k' → 61 ∉ k → 61 ∉ k' →
    ∀ (t q : List Nat), k ++ 61 :: t ≠ k' ++ 61 :: q := by
  intro k
  induction k with
  | nil =>
    intro k' hne h61 h61' t q heq
    cases k' with
    | nil => exact hne rfl
    | cons c cs =>
      simp only [List.nil_append, List.cons_append] at heq
      injection heq with h1 _
      refine h61' ?_
      rw [h1]
      exact List.mem_cons_self _ _
  | cons a as ih =>
    intro k' hne h61 h61' t q heq
    cases k' with
    | nil =>
      simp only [List.cons_append, List.nil_append] at heq
      injection heq with h1 _
      refine h61 ?_
      rw [← h1]
      exact List.mem_cons_self _ _
    | cons c cs =>
      simp only [List.cons_append] at heq
      injection heq with h1 h2
      have has : as ≠ cs := fun h => hne (by rw [h1, h])
      exact ih cs has (fun hm => h61 (List.mem_cons_of_mem _ hm))
        (fun hm => h61' (List.mem_cons_of_mem _ hm)) t q h2

/-! ## C2: the session header law -/

/-- C2: after a clean response whose Clear-Session and Set-Session
headers are processed, every set pair name is bound in the session to
its percent-decoded value v-prime and the next session header carries
the entry name=percent_encode(v-prime); every cleared name that is
not re-set is absent from the session and from every entry of the
next session header; percent decoding undoes percent encoding on any
byte string (so values containing commas or equals signs survive the
decode-then-re-encode round trip); and the next request's
X-Presto-Session header is exactly the comma join of those entries. -/
theorem c2_session_headers (st : ReqState) (r : MockResponse) (ch sh : List Nat)
    (pairs : List (List Nat × List Nat))
    (hclean : cleanResp r = true)
    (hch : r.clearSessionHdr = some ch)
    (hsh : r.setSessionHdr = some sh)
    (hparse : get_session_property_values sh = some pairs)
    (hnd : (st.props.map Prod.fst).Nodup)
    (hkeys61 : ∀ p ∈ st.props, 61 ∉ p.1) :
    ∃ status, processE st r = (.ok status, reqAfter st r)
    ∧ (∀ kv ∈ pairs, ∃ v', dictGet (propsAfter st.props r) kv.1 = some v'
        ∧ (kv.1 ++ 61 :: pyQuote v') ∈ sessionEntries (propsAfter st.props r))
    ∧ (∀ k ∈ get_header_values ch, 61 ∉ k → (∀ v, (k, v) ∉ pairs) →
        dictGet (propsAfter st.props r) k = none
        ∧ ∀ e ∈ sessionEntries (propsAfter st.props r), ∀ t, e ≠ k ++ 61 :: t)
    ∧ (∀ w : List Nat, (∀ b ∈ w, b < 256) → pyUnquote (pyQuote w) = w)
    ∧ (∀ cs : ClientSessionM, cs.properties = propsAfter st.props r → cs.headers = [] →
        ∀ pss, ∃ hs, http_headers cs pss = .ok hs
          ∧ dictGet hs HeaderName.session
            = some (.b (joinComma (sessionEntries (propsAfter st.props r))))) := by
  have hprops : propsAfter st.props r
      = applySetSession (applyClearSession st.props (get_header_values ch)) pairs := by
    simp [propsAfter, hch, hsh, hparse]
  refine ⟨statusOf r, processE_clean st r hclean, ?_, ?_, pyUnquote_pyQuote, ?_⟩
  · intro kv hkv
    obtain ⟨v', hv'⟩ := applySet_get_mem pairs _ kv.1 (List.mem_map_of_mem Prod.fst hkv)
    have hget : dictGet (propsAfter st.props r) kv.1 = some v' := by
      rw [hprops]; exact hv'
    exact ⟨v', hget, List.mem_map_of_mem _ (dictGet_some_mem _ _ _ hget)⟩
  · intro k hk hk61 hknot
    have hknotin : k ∉ pairs.map Prod.fst := by
      intro hmem
      rw [List.mem_map] at hmem
      obtain ⟨p, hp, hpk⟩ := hmem
      obtain ⟨px, py⟩ := p
      exact hknot py (hpk ▸ hp)
    have hnone : dictGet (propsAfter st.props r) k = none := by
      rw [hprops, applySet_get_not_mem pairs _ k hknotin]
      exact applyClear_get_none _ _ hnd k hk
    refine ⟨hnone, ?_⟩
    intro e he t
    rw [sessionEntries, List.mem_map] at he
    obtain ⟨p, hp, hpe⟩ := he
    rw [← hpe]
    have hpk : p.1 ≠ k := by
      intro h
      exact dictGet_none_not_mem _ _ hnone p.2 (by rw [← h]; exact hp)
    have hp61 : 61 ∉ p.1 := by
      rcases mem_applySet pairs _ p (hprops ▸ hp) with hmem | hmemk
      · exact hkeys61 p (mem_applyClear _ _ p hmem)
      · rw [List.mem_map] at hmemk
        obtain ⟨kv, hkv, hkvk⟩ := hmemk
        exact hkvk ▸ parse_keys_no_eq sh pairs hparse kv hkv
    exact entry_key_distinct p.1 k hpk hp61 hk61 (pyQuote p.2) t
  · intro cs hcsp hcsh pss
    have hany : cs.headers.any
        (fun p => (dictGet (reservedHeaderDict cs pss) p.1).isSome) = false := by
      rw [hcsh]; rfl
    refine ⟨dictInsert (reservedHeaderDict cs pss) HeaderName.transactionId
      (ovHV cs.transaction_id), ?_, ?_⟩
    · simp [http_headers, hcsh]
    · rw [dictGet_insert, if_neg (by decide)]
      simp only [reservedHeaderDict]
      rw [dictGet_insert, if_pos rfl, hcsp]

/-- Witness for C2 at the spec's S4 data: clearing old and setting
a=hello%2Cworld on a session that held b=1. -/
theorem c2_witness :
    ∃ status, processE c2St c2Resp = (.ok status, reqAfter c2St c2Resp)
    ∧ (∀ kv ∈ [(strB "a", strB "hello,world")], ∃ v',
        dictGet (propsAfter c2St.props c2Resp) kv.1 = some v'
        ∧ (kv.1 ++ 61 :: pyQuote v') ∈ sessionEntries (propsAfter c2St.props c2Resp))
    ∧ (∀ k ∈ get_header_values (strB "old"), 61 ∉ k →
        (∀ v, (k, v) ∉ [(strB "a", strB "hello,world")]) →
        dictGet (propsAfter c2St.props c2Resp) k = none
        ∧ ∀ e ∈ sessionEntries (propsAfter c2St.props c2Resp), ∀ t, e ≠ k ++ 61 :: t)
    ∧ (∀ w : List Nat, (∀ b ∈ w, b < 256) → pyUnquote (pyQuote w) = w)
    ∧ (∀ cs : ClientSessionM, cs.properties = propsAfter c2St.props c2Resp →
        cs.headers = [] → ∀ pss, ∃ hs, http_headers cs pss = .ok hs
          ∧ dictGet hs HeaderName.session
            = some (.b (joinComma (sessionEntries (propsAfter c2St.props c2Resp))))) := by
  exact c2_session_headers c2St c2Resp (strB "old") (strB "a=hello%2Cworld")
    [(strB "a", strB "hello,world")]
    (by decide) rfl rfl (by decide) (by decide) (by decide)

end Presto
